import Mathlib

/-!
Verification of the next2tanstack transform orchestration and route-relocation
engine.  The definitions below are a shallow embedding of the TypeScript
source: pure functions are translated directly, filesystem-effecting code is
modelled by explicit state passing over a small filesystem model, and runtime
inputs (CLI arguments, environment variables, on-disk config contents) are
passed as explicit parameters.  JavaScript strings are modelled by Lean
`String` (operating on `List Char` underneath); JS truthiness of a string is
the test against the empty string; regular expressions used by the source are
translated into explicit character scanners with the same matching semantics.
-/

namespace NextToTanstack

/-! ## Character and string utilities (JS string-operation semantics) -/

/-- The whitespace characters trimmed by `String.prototype.trim` (ASCII part). -/
def isJsWhitespace (c : Char) : Bool :=
  c = ' ' || c = '\t' || c = '\n' || c = '\r' || c = Char.ofNat 11 || c = Char.ofNat 12

/-- `value.trim()` on the underlying character list. -/
def jsTrimChars (l : List Char) : List Char :=
  ((l.dropWhile isJsWhitespace).reverse.dropWhile isJsWhitespace).reverse

/-- `value.trim()`. -/
def jsTrim (s : String) : String :=
  String.mk (jsTrimChars s.data)

/-- JS `String.prototype.split` against a single-character class, keeping
empty pieces, on character lists. -/
def jsSplitCharsAux (p : Char → Bool) : List Char → List Char → List (List Char)
  | [], acc => [acc.reverse]
  | c :: rest, acc =>
    if p c then acc.reverse :: jsSplitCharsAux p rest []
    else jsSplitCharsAux p rest (c :: acc)

/-- JS `value.split(sepClass)` keeping empty pieces. -/
def jsSplit (p : Char → Bool) (s : String) : List String :=
  (jsSplitCharsAux p s.data []).map String.mk

/-- `Array.prototype.join(sep)`. -/
def jsJoin (sep : String) : List String → String
  | [] => ""
  | [x] => x
  | x :: rest => x ++ sep ++ jsJoin sep rest

/-- Whether `needle` occurs as a contiguous substring of `haystack`
(JS `String.prototype.includes`). -/
def hasSubstr (haystack needle : List Char) : Bool :=
  if needle.isPrefixOf haystack then true
  else match haystack with
    | [] => false
    | _ :: t => hasSubstr t needle

/-- JS `haystack.includes(needle)`. -/
def jsIncludes (haystack needle : String) : Bool :=
  hasSubstr haystack.data needle.data

/-- JS `s.startsWith(t)`. -/
def jsStartsWith (s t : String) : Bool :=
  t.data.isPrefixOf s.data

/-- JS `s.endsWith(t)`. -/
def jsEndsWith (s t : String) : Bool :=
  t.data.isSuffixOf s.data

/-- `haystack.lastIndexOf(needle)` as an `Option`: the largest start index of
an occurrence of `needle`, if one exists. -/
def lastIndexOfSub (haystack needle : List Char) : Option Nat :=
  match haystack with
  | [] => if needle.isEmpty then some 0 else none
  | _ :: t =>
    match lastIndexOfSub t needle with
    | some i => some (i + 1)
    | none => if needle.isPrefixOf haystack then some 0 else none

/-- Strip one trailing slash, the effect of `value.replace(/\/$/, "")`. -/
def stripOneTrailingSlash : List Char → List Char
  | [] => []
  | [c] => if c = '/' then [] else [c]
  | c :: c2 :: rest => c :: stripOneTrailingSlash (c2 :: rest)

/-- The `MIGRATION_IDS` constant of the source. -/
def MIGRATION_IDS : List String :=
  ["next-image", "next-link", "next-server-functions", "manual-migration-todos",
   "next-use-client", "route-file-structure", "route-groups", "api-routes"]

/-- `normalizeMigrationId`: a known id maps to itself, anything else to `null`. -/
def normalizeMigrationId (value : String) : Option String :=
  if value ∈ MIGRATION_IDS then some value else none

/-- The optional keys of a parsed `next-to-start.codemod.json` project config.
Ill-typed JSON values (non-strings in the lists, non-boolean map entries) are
skipped by the source before use, so the fields are modelled well-typed. -/
structure CodemodProjectConfig where
  routesDirectory : Option String := none
  appDirectory : Option String := none
  enabledMigrations : Option (List String) := none
  disabledMigrations : Option (List String) := none
  migrations : Option (List (String × Bool)) := none

/-! ## Path helpers of the source -/

/-- `normalizePath`: backslashes become forward slashes. -/
def normalizePath (value : String) : String :=
  String.mk (value.data.map fun c => if c = '\\' then '/' else c)

/-- `dirname`: the prefix before the last slash of the normalized path, or
`"."` when there is no slash. -/
def dirname (value : String) : String :=
  let normalized := normalizePath value
  match lastIndexOfSub normalized.data ['/'] with
  | none => "."
  | some idx => String.mk (normalized.data.take idx)

/-- A character stripped from the front by `normalizeRoutesDirectory`. -/
def isDotOrSlash (c : Char) : Bool :=
  c = '.' || c = '/' || c = '\\'

/-- A slash character (either direction). -/
def isSlashChar (c : Char) : Bool :=
  c = '\\' || c = '/'

/-- `normalizeRoutesDirectory`: trim, strip the leading run of `.`/`/`/`\`,
strip the trailing run of slashes. -/
def normalizeRoutesDirectory (value : String) : String :=
  String.mk
    (((jsTrimChars value.data).dropWhile isDotOrSlash).reverse.dropWhile isSlashChar).reverse

/-- `normalizeAppDirectory`: same normalization as for the routes directory. -/
def normalizeAppDirectory (value : String) : String :=
  String.mk
    (((jsTrimChars value.data).dropWhile isDotOrSlash).reverse.dropWhile isSlashChar).reverse

/-- `normalizeDirSegments`: normalized path split on `/`, empty pieces dropped. -/
def normalizeDirSegments (value : String) : List String :=
  (jsSplit (· = '/') (normalizePath value)).filter (· ≠ "")

/-- Scan for the first position where `needle` is a prefix. -/
def findSubPathIndexAux (needle : List String) : List String → Option Nat
  | [] => none
  | s :: rest =>
    if needle.isPrefixOf (s :: rest) then some 0
    else
      match findSubPathIndexAux needle rest with
      | some i => some (i + 1)
      | none => none

/-- `findSubPathIndex`: the first index at which `needle` occurs as a
contiguous sub-sequence of `haystack`; `-1` of the source becomes `none`. -/
def findSubPathIndex (haystack needle : List String) : Option Nat :=
  if needle.length = 0 || needle.length > haystack.length then none
  else findSubPathIndexAux needle haystack

/-! ## Routes-directory resolution (`getConfiguredRoutesDirectory`) -/

/-- The per-process inputs read by `getRoutesDirectoryOverride`: the
`--routes-directory` CLI option and the two environment variables. -/
structure ProcEnv where
  cliRoutesDirectory : Option String := none
  envCodemodRoutesDirectory : Option String := none
  envRoutesDirectory : Option String := none

/-- `getRoutesDirectoryOverride`: the CLI value wins if it normalizes to a
nonempty directory, else `CODEMOD_ROUTES_DIRECTORY` (with nullish fallback to
`ROUTES_DIRECTORY`) if that normalizes to a nonempty directory, else `null`. -/
def getRoutesDirectoryOverride (env : ProcEnv) : Option String :=
  let fromCli : Option String :=
    match env.cliRoutesDirectory with
    | some cliValue =>
      if cliValue ≠ "" then
        let normalized := normalizeRoutesDirectory cliValue
        if normalized ≠ "" then some normalized else none
      else none
    | none => none
  match fromCli with
  | some v => some v
  | none =>
    let envValue : Option String :=
      match env.envCodemodRoutesDirectory with
      | some v => some v
      | none => env.envRoutesDirectory
    match envValue with
    | some v =>
      if v ≠ "" then
        let normalized := normalizeRoutesDirectory v
        if normalized ≠ "" then some normalized else none
      else none
    | none => none

/-- The `candidateKeys` probed in `options.params`. -/
def routesDirectoryParamKeys : List String :=
  ["routesDirectory", "routes_directory", "routes-dir", "routesDir"]

/-- Probe the candidate keys in order; the first whose value normalizes to a
nonempty directory wins. -/
def tryRoutesDirectoryParamKeys (params : List (String × String)) :
    List String → Option String
  | [] => none
  | k :: rest =>
    match params.lookup k with
    | some raw =>
      let normalized := normalizeRoutesDirectory raw
      if normalized ≠ "" then some normalized else tryRoutesDirectoryParamKeys params rest
    | none => tryRoutesDirectoryParamKeys params rest

/-- `getRoutesDirectoryOverrideFromOptions`: the workflow `options.params`
object (modelled as an association list when present). -/
def getRoutesDirectoryOverrideFromOptions
    (params : Option (List (String × String))) : Option String :=
  match params with
  | none => none
  | some ps => tryRoutesDirectoryParamKeys ps routesDirectoryParamKeys

/-- One of the three quote characters accepted by the vite-config scan. -/
def isQuoteChar (c : Char) : Bool :=
  c = Char.ofNat 39 || c = '"' || c = Char.ofNat 96

/-- Try to match `routesDirectory \s* : \s* quote ([^quotes]+) quote` at the
head of the character list, returning the captured group. -/
def parseViteMatchAt (l : List Char) : Option (List Char) :=
  if ("routesDirectory".data).isPrefixOf l then
    match (l.drop 15).dropWhile isJsWhitespace with
    | ':' :: r2 =>
      match r2.dropWhile isJsWhitespace with
      | q :: r4 =>
        if isQuoteChar q then
          let inner := r4.takeWhile (fun c => ¬ isQuoteChar c)
          let rest := r4.dropWhile (fun c => ¬ isQuoteChar c)
          if inner ≠ [] ∧ rest ≠ [] then some inner else none
        else none
      | [] => none
    | _ => none
  else none

/-- First match of the `routesDirectory` field pattern anywhere in the text. -/
def parseViteScan : List Char → Option (List Char)
  | [] => none
  | c :: rest =>
    match parseViteMatchAt (c :: rest) with
    | some inner => some inner
    | none => parseViteScan rest

/-- `parseRoutesDirectoryFromViteConfig`: the first quoted `routesDirectory:`
value in the build-tool config text, trimmed, with an empty result treated
as no value. -/
def parseRoutesDirectoryFromViteConfig (source : String) : Option String :=
  match parseViteScan source.data with
  | some inner =>
    let t := jsTrimChars inner
    if t = [] then none else some (String.mk t)
  | none => none

/-- `getConfiguredRoutesDirectory`.  Filesystem discovery of the vite config
is passed in: `none` means no `vite.config.*` was found next to the project
root, `some none` that it could not be read, `some (some text)` its text. -/
def getConfiguredRoutesDirectory (filename : String)
    (projectConfig : CodemodProjectConfig) (override : Option String)
    (env : ProcEnv) (viteConfigSource : Option (Option String)) : String :=
  let configOverride : Option String :=
    match projectConfig.routesDirectory with
    | some s =>
      let n := normalizeRoutesDirectory s
      if n ≠ "" then some n else none
    | none => none
  match configOverride with
  | some c => c
  | none =>
    let resolvedOverride : Option String :=
      match override with
      | some s => if s ≠ "" then some s else getRoutesDirectoryOverride env
      | none => getRoutesDirectoryOverride env
    match resolvedOverride with
    | some s => normalizeRoutesDirectory s
    | none =>
      let normalizedFilename := normalizePath filename
      let appDir : String :=
        match projectConfig.appDirectory with
        | some s =>
          let n := normalizeAppDirectory s
          if n ≠ "" then n else "app"
        | none => "app"
      match lastIndexOfSub normalizedFilename.data ("/" ++ appDir ++ "/").data with
      | none => "routes"
      | some _ =>
        match viteConfigSource with
        | none => "routes"
        | some none => "routes"
        | some (some source) =>
          normalizeRoutesDirectory
            (match parseRoutesDirectoryFromViteConfig source with
             | some v => v
             | none => "routes")

/-- C1 counterexample: with both a project-config `routesDirectory` and an
explicit per-invocation `routesDirectory` parameter present, the resolved
value is the config file's, not the parameter's as the claim requires. -/
theorem c1_counterexample :
    getRoutesDirectoryOverrideFromOptions (some [("routesDirectory", "param-routes")]) =
        some "param-routes" ∧
    getConfiguredRoutesDirectory "proj/app/about/page.tsx"
        { routesDirectory := some "config-routes" }
        (getRoutesDirectoryOverrideFromOptions (some [("routesDirectory", "param-routes")]))
        {} none = "config-routes" ∧
    ("config-routes" : String) ≠ "param-routes" := by
  exact ⟨rfl, rfl, by decide⟩

/-- C1 (amended): the project-local config file is the *highest* layer of the
routes-directory precedence chain: whenever its `routesDirectory` normalizes
to a nonempty value, that value is the resolved routes directory, outranking
the per-invocation parameter, the CLI flag, the environment variables and the
build-tool scan. -/
theorem c1_config_file_wins (filename : String) (projectConfig : CodemodProjectConfig)
    (override : Option String) (env : ProcEnv) (vite : Option (Option String))
    (s : String) (hs : projectConfig.routesDirectory = some s)
    (hn : normalizeRoutesDirectory s ≠ "") :
    getConfiguredRoutesDirectory filename projectConfig override env vite =
      normalizeRoutesDirectory s := by
  unfold getConfiguredRoutesDirectory
  simp [hs, hn]

/-- C1 witness: the config-precedence theorem applied at a concrete input. -/
theorem c1_config_file_wins_witness :
    getConfiguredRoutesDirectory "proj/app/x/page.tsx" { routesDirectory := some "cfg" }
      (some "param") {} none = normalizeRoutesDirectory "cfg" :=
  c1_config_file_wins "proj/app/x/page.tsx" { routesDirectory := some "cfg" }
    (some "param") {} none "cfg" rfl (by decide)

/-! ## Route segment and filename mapping -/

/-- Full-anchored match of `^\(([^)]+)\)$`: an open paren, a nonempty run of
non-`)` characters, a closing paren ending the segment. -/
def matchGroupSegment (l : List Char) : Option (List Char) :=
  match l with
  | c :: rest =>
    if c = '(' then
      let inner := rest.takeWhile (fun ch => ch != ')')
      let rest2 := rest.dropWhile (fun ch => ch != ')')
      if inner ≠ [] ∧ rest2 = [')'] then some inner else none
    else none
  | [] => none

/-- Full-anchored match of `^\[\[\.\.\.([^\]]+)\]\]$`. -/
def matchOptionalCatchAllSegment (l : List Char) : Option (List Char) :=
  match l with
  | c1 :: c2 :: c3 :: c4 :: c5 :: rest =>
    if c1 = '[' ∧ c2 = '[' ∧ c3 = '.' ∧ c4 = '.' ∧ c5 = '.' then
      let inner := rest.takeWhile (fun ch => ch != ']')
      let rest2 := rest.dropWhile (fun ch => ch != ']')
      if inner ≠ [] ∧ rest2 = [']', ']'] then some inner else none
    else none
  | _ => none

/-- Full-anchored match of `^\[\.\.\.([^\]]+)\]$`. -/
def matchCatchAllSegment (l : List Char) : Option (List Char) :=
  match l with
  | c1 :: c2 :: c3 :: c4 :: rest =>
    if c1 = '[' ∧ c2 = '.' ∧ c3 = '.' ∧ c4 = '.' then
      let inner := rest.takeWhile (fun ch => ch != ']')
      let rest2 := rest.dropWhile (fun ch => ch != ']')
      if inner ≠ [] ∧ rest2 = [']'] then some inner else none
    else none
  | _ => none

/-- Full-anchored match of `^\[([^\]]+)\]$`. -/
def matchDynamicSegment (l : List Char) : Option (List Char) :=
  match l with
  | c :: rest =>
    if c = '[' then
      let inner := rest.takeWhile (fun ch => ch != ']')
      let rest2 := rest.dropWhile (fun ch => ch != ']')
      if inner ≠ [] ∧ rest2 = [']'] then some inner else none
    else none
  | [] => none

/-- `mapRouteSegment`: route groups become `_name`, both catch-all flavours
become `$`, dynamic segments become `$name`, anything else is unchanged. -/
def mapRouteSegment (segment : String) : String :=
  match matchGroupSegment segment.data with
  | some inner => String.mk ('_' :: inner)
  | none =>
    match matchOptionalCatchAllSegment segment.data with
    | some _ => "$"
    | none =>
      match matchCatchAllSegment segment.data with
      | some _ => "$"
      | none =>
        match matchDynamicSegment segment.data with
        | some inner => String.mk ('$' :: inner)
        | none => segment

/-- The source-file extensions accepted by the route filename patterns. -/
def sourceFileExts : List String := ["tsx", "jsx", "ts", "js"]

/-- Match `^name\.(tsx|jsx|ts|js)$` against `base`, returning the extension. -/
def matchBaseWithName (name base : String) : Option String :=
  sourceFileExts.findSome? fun ext => if base = name ++ "." ++ ext then some ext else none

/-- `mapRouteFilename`: the special Next.js route filenames and their
TanStack counterparts; `route.*` keeps its name; anything else is `null`. -/
def mapRouteFilename (base : String) (isRootLayout : Bool) : Option String :=
  match matchBaseWithName "page" base with
  | some ext => some ("index." ++ ext)
  | none =>
    match matchBaseWithName "layout" base with
    | some ext => some ((if isRootLayout then "__root." else "_layout.") ++ ext)
    | none =>
      match matchBaseWithName "loading" base with
      | some ext => some ("-pending." ++ ext)
      | none =>
        match matchBaseWithName "error" base with
        | some ext => some ("-error." ++ ext)
        | none =>
          match matchBaseWithName "not-found" base with
          | some ext => some ("-not-found." ++ ext)
          | none =>
            match matchBaseWithName "template" base with
            | some ext => some ("-template." ++ ext)
            | none =>
              match matchBaseWithName "default" base with
              | some ext => some ("-default." ++ ext)
              | none =>
                match matchBaseWithName "route" base with
                | some _ => some base
                | none => none

/-- `^_[^/\\]+$`: a private-folder segment. -/
def isPrivateSegment (segment : String) : Bool :=
  match segment.data with
  | c :: rest => c = '_' && !rest.isEmpty && rest.all (fun ch => ch != '/' && ch != '\\')
  | [] => false

/-- `^@[^/\\]+$`: a parallel-route segment. -/
def isParallelSegment (segment : String) : Bool :=
  match segment.data with
  | c :: rest => c = '@' && !rest.isEmpty && rest.all (fun ch => ch != '/' && ch != '\\')
  | [] => false

/-- `^\([^)]+\)$`: a route-group segment. -/
def isRouteGroupSegment (segment : String) : Bool :=
  (matchGroupSegment segment.data).isSome

/-- `^(layout|template)\.(tsx|jsx|ts|js)$`. -/
def isLayoutLikeFile (base : String) : Bool :=
  (matchBaseWithName "layout" base).isSome || (matchBaseWithName "template" base).isSome

/-- `/\.(tsx|jsx|ts|js)$/.test(filename)`. -/
def hasSourceFileExt (filename : String) : Bool :=
  sourceFileExts.any fun ext => jsEndsWith filename ("." ++ ext)

/-- `filename.split(/[/\\]/)`, empty pieces kept. -/
def splitPathSegments (filename : String) : List String :=
  jsSplit isSlashChar filename

/-- The `ResolvedRuntimeConfig` of the source. -/
structure ResolvedRuntimeConfig where
  routesDirectory : String
  appDirectory : String
  enabledMigrations : Finset String

/-- `computeTanstackTargetPath`: derive the relocation target of a route
file, or `null` when the file is not eligible for relocation. -/
def computeTanstackTargetPath (filename : String)
    (runtimeConfig : ResolvedRuntimeConfig) : Option String :=
  if hasSourceFileExt filename then
    if jsIncludes filename "node_modules" then none
    else
      let sep : String := if jsIncludes filename "\\" then "\\" else "/"
      let segments := splitPathSegments filename
      if segments.length < 2 then none
      else
        let appDirSegments := normalizeDirSegments runtimeConfig.appDirectory
        match findSubPathIndex segments appDirSegments with
        | none => none
        | some appIndex =>
          let appEndIndex := appIndex + appDirSegments.length
          if appEndIndex ≥ segments.length then none
          else
            let fileBase := (segments.getLast?).getD ""
            if fileBase = "" then none
            else
              let relativeRouteSegments := (segments.drop appEndIndex).dropLast
              let isGroupOnlyBranch :=
                !relativeRouteSegments.isEmpty &&
                  relativeRouteSegments.all isRouteGroupSegment
              if relativeRouteSegments.any isPrivateSegment ||
                  relativeRouteSegments.any isParallelSegment then none
              else if relativeRouteSegments.any isRouteGroupSegment &&
                  isLayoutLikeFile fileBase && !isGroupOnlyBranch then none
              else
                let isRootLayout :=
                  relativeRouteSegments.isEmpty &&
                    (matchBaseWithName "layout" fileBase).isSome
                match mapRouteFilename fileBase isRootLayout with
                | none => none
                | some mappedBase =>
                  let routesDirSegments :=
                    (jsSplit isSlashChar runtimeConfig.routesDirectory).filter (· ≠ "")
                  if routesDirSegments.length = 0 then none
                  else
                    let mappedDirs := relativeRouteSegments.map mapRouteSegment
                    let targetPath :=
                      jsJoin sep
                        (segments.take appIndex ++ routesDirSegments ++
                          mappedDirs ++ [mappedBase])
                    if normalizePath targetPath = normalizePath filename then none
                    else some targetPath
  else none

/-- The default runtime config: `routes` directory, `app` directory, every
migration enabled. -/
def defaultRuntimeConfig : ResolvedRuntimeConfig :=
  { routesDirectory := "routes", appDirectory := "app",
    enabledMigrations := MIGRATION_IDS.toFinset }

/-- C8: under the app directory with default configuration,
`(marketing)/about/page.tsx` is relocated to `_marketing/about/index.tsx`
under the routes directory — `(name)` maps to `_name`, plain segments are
unchanged, and `page` maps to the index file. -/
theorem c8_marketing_example :
    mapRouteSegment "(marketing)" = "_marketing" ∧
    mapRouteFilename "page.tsx" false = some "index.tsx" ∧
    computeTanstackTargetPath "proj/app/(marketing)/about/page.tsx"
        defaultRuntimeConfig =
      some "proj/routes/_marketing/about/index.tsx" :=
  ⟨rfl, rfl, rfl⟩

/-- `(s ++ t).data` unfolds to list append. -/
theorem strDataAppend (s t : String) : (s ++ t).data = s.data ++ t.data := rfl

/-- `takeWhile` passes over a prefix all of whose elements satisfy it. -/
theorem takeWhileAppendAll {α : Type} {p : α → Bool} (l r : List α)
    (h : ∀ c ∈ l, p c = true) :
    (l ++ r).takeWhile p = l ++ r.takeWhile p := by
  induction l with
  | nil => rfl
  | cons a t ih =>
    simp [List.takeWhile_cons, h a (List.mem_cons_self a t),
      ih fun c hc => h c (List.mem_cons_of_mem a hc)]

/-- `dropWhile` skips a prefix all of whose elements satisfy it. -/
theorem dropWhileAppendAll {α : Type} {p : α → Bool} (l r : List α)
    (h : ∀ c ∈ l, p c = true) :
    (l ++ r).dropWhile p = r.dropWhile p := by
  induction l with
  | nil => rfl
  | cons a t ih =>
    simp only [List.cons_append, List.dropWhile_cons, h a (List.mem_cons_self a t)]
    exact ih fun c hc => h c (List.mem_cons_of_mem a hc)

/-- C9: for every segment name (nonempty, with no `]` in it), the required
catch-all `[...name]` and the optional catch-all `[[...name]]` both derive
to the same catch-all token `$`. -/
theorem c9_catch_all_equivalence (name : String)
    (hne : name ≠ "") (hc : ∀ c ∈ name.data, c ≠ ']') :
    mapRouteSegment ("[..." ++ name ++ "]") = "$" ∧
    mapRouteSegment ("[[..." ++ name ++ "]]") = "$" := by
  have hd : name.data ≠ [] := by
    intro h
    exact hne (by cases name; simp_all)
  have hp : ∀ c ∈ name.data, (c != ']') = true := by
    intro c hcm
    simpa using hc c hcm
  have e1 : ("[..." ++ name ++ "]").data =
      '[' :: '.' :: '.' :: '.' :: (name.data ++ [']']) := by
    rw [strDataAppend, strDataAppend]
    rfl
  have e2 : ("[[..." ++ name ++ "]]").data =
      '[' :: '[' :: '.' :: '.' :: '.' :: (name.data ++ [']', ']']) := by
    rw [strDataAppend, strDataAppend]
    show ('[' :: '[' :: '.' :: '.' :: '.' :: []) ++ name.data ++ (']' :: ']' :: []) = _
    simp
  constructor
  · unfold mapRouteSegment
    rw [e1]
    rw [show matchGroupSegment ('[' :: '.' :: '.' :: '.' :: (name.data ++ [']'])) = none
          from rfl]
    rw [show matchOptionalCatchAllSegment
          ('[' :: '.' :: '.' :: '.' :: (name.data ++ [']'])) = none from ?_]
    · unfold matchCatchAllSegment
      simp only [takeWhileAppendAll name.data [']'] hp,
        dropWhileAppendAll name.data [']'] hp]
      simp [hd]
    · unfold matchOptionalCatchAllSegment
      cases h : name.data ++ [']'] with
      | nil => simp at h
      | cons b bs => simp
  · unfold mapRouteSegment
    rw [e2]
    rw [show matchGroupSegment
          ('[' :: '[' :: '.' :: '.' :: '.' :: (name.data ++ [']', ']'])) = none from rfl]
    unfold matchOptionalCatchAllSegment
    simp only [takeWhileAppendAll name.data [']', ']'] hp,
      dropWhileAppendAll name.data [']', ']'] hp]
    simp [hd]

/-- C9 witness: the catch-all equivalence at the concrete segment name
`slug`. -/
theorem c9_catch_all_equivalence_witness :
    mapRouteSegment "[...slug]" = "$" ∧ mapRouteSegment "[[...slug]]" = "$" :=
  c9_catch_all_equivalence "slug" (by decide) (by decide)

/-! ## Route-path derivation to URL-path strings -/

/-- A generic left-to-right global-replace scanner with JS `replace(/g)`
semantics: at each position try `tryMatch`; on a match emit the replacement
and continue after the consumed text, otherwise emit one character and move
on.  Every pattern used here consumes at least one character, so fuel equal
to the input length never runs out. -/
def replaceScan (tryMatch : List Char → Option (List Char × List Char)) :
    Nat → List Char → List Char
  | 0, l => l
  | _ + 1, [] => []
  | fuel + 1, c :: rest =>
    match tryMatch (c :: rest) with
    | some (rep, remaining) => rep ++ replaceScan tryMatch fuel remaining
    | none => c :: replaceScan tryMatch fuel rest

/-- Run a global replace over the whole input. -/
def jsReplaceAll (tryMatch : List Char → Option (List Char × List Char))
    (l : List Char) : List Char :=
  replaceScan tryMatch l.length l

/-- One match of `\(([^)]+)\)` with replacement `_$1`. -/
def tryGroupMatch : List Char → Option (List Char × List Char)
  | c :: rest =>
    if c = '(' then
      let inner := rest.takeWhile (fun ch => ch != ')')
      let rest2 := rest.dropWhile (fun ch => ch != ')')
      if inner ≠ [] ∧ rest2 ≠ [] then some ('_' :: inner, rest2.drop 1) else none
    else none
  | [] => none

/-- One match of `\[\[\.\.\.([^\]]+)\]\]` with replacement `$`. -/
def tryOptionalCatchAllMatch : List Char → Option (List Char × List Char)
  | c1 :: c2 :: c3 :: c4 :: c5 :: rest =>
    if c1 = '[' ∧ c2 = '[' ∧ c3 = '.' ∧ c4 = '.' ∧ c5 = '.' then
      let inner := rest.takeWhile (fun ch => ch != ']')
      let rest2 := rest.dropWhile (fun ch => ch != ']')
      match rest2 with
      | b1 :: b2 :: r => if inner ≠ [] ∧ b1 = ']' ∧ b2 = ']' then some (['$'], r) else none
      | _ => none
    else none
  | _ => none

/-- One match of `\[\.\.\.([^\]]+)\]` with replacement `$`. -/
def tryCatchAllMatch : List Char → Option (List Char × List Char)
  | c1 :: c2 :: c3 :: c4 :: rest =>
    if c1 = '[' ∧ c2 = '.' ∧ c3 = '.' ∧ c4 = '.' then
      let inner := rest.takeWhile (fun ch => ch != ']')
      let rest2 := rest.dropWhile (fun ch => ch != ']')
      match rest2 with
      | b :: r => if inner ≠ [] ∧ b = ']' then some (['$'], r) else none
      | _ => none
    else none
  | _ => none

/-- One match of `\[([^\]]+)\]` with replacement `$` followed by the capture. -/
def tryDynamicMatch : List Char → Option (List Char × List Char)
  | c :: rest =>
    if c = '[' then
      let inner := rest.takeWhile (fun ch => ch != ']')
      let rest2 := rest.dropWhile (fun ch => ch != ']')
      match rest2 with
      | b :: r => if inner ≠ [] ∧ b = ']' then some ('$' :: inner, r) else none
      | _ => none
    else none
  | [] => none

/-- Apply the four Next-to-TanStack segment rewrites in source order:
route groups, optional catch-alls, catch-alls, dynamic segments. -/
def applySegmentRewrites (l : List Char) : List Char :=
  jsReplaceAll tryDynamicMatch
    (jsReplaceAll tryCatchAllMatch
      (jsReplaceAll tryOptionalCatchAllMatch
        (jsReplaceAll tryGroupMatch l)))

/-- `^(page|layout|loading|error|not-found|template|route)\.(tsx|jsx|ts|js)$`. -/
def isRouteSpecialBase (s : String) : Bool :=
  ["page", "layout", "loading", "error", "not-found", "template", "route"].any
    fun n => (matchBaseWithName n s).isSome

/-- Replace the leftmost suffix-anchored occurrence of a special base name
(the effect of `replace(/(names)\.(exts)$/, "")` without a `^` anchor). -/
def stripBaseSuffixScan (isBase : String → Bool) : List Char → List Char
  | [] => []
  | c :: rest =>
    if isBase (String.mk (c :: rest)) then []
    else c :: stripBaseSuffixScan isBase rest

/-- `if (!routePath.startsWith("/")) routePath = "/" + routePath`. -/
def ensureLeadingSlash (l : List Char) : List Char :=
  match l with
  | c :: rest => if c = '/' then c :: rest else '/' :: c :: rest
  | [] => ['/']

/-- The shared tail of all three route-path derivations: ensure a leading
slash, strip one trailing slash, and fall back to `/` when empty. -/
def finalizeRoutePathChars (l : List Char) : List Char :=
  let u := stripOneTrailingSlash (ensureLeadingSlash l)
  if u = [] then ['/'] else u

/-- `computeExpectedRoutePathFromSourcePath`: the URL route path derived
from the original file path's segments, used by the invariant checker. -/
def computeExpectedRoutePathFromSourcePath (filename : String)
    (runtimeConfig : ResolvedRuntimeConfig) : Option String :=
  let normalized := normalizePath filename
  let segments := (jsSplit (· = '/') normalized).filter (· ≠ "")
  let appDirSegments := normalizeDirSegments runtimeConfig.appDirectory
  match findSubPathIndex segments appDirSegments with
  | none => none
  | some appIndex =>
    let appEndIndex := appIndex + appDirSegments.length
    let relativeSegments := segments.drop appEndIndex
    if relativeSegments.length = 0 then none
    else if relativeSegments.head?.getD "" = "api" then none
    else
      let withoutFilename := relativeSegments.dropLast
      let filenamePart := relativeSegments.getLast?.getD ""
      let strippedFilename :=
        if isRouteSpecialBase filenamePart then "" else filenamePart
      let routePath0 :=
        stripOneTrailingSlash
          (jsJoin "/" ((withoutFilename ++ [strippedFilename]).filter (· ≠ ""))).data
      some (String.mk (finalizeRoutePathChars (applySegmentRewrites routePath0)))

/-- First match of `[\\/]app[\\/](.+)`: the capture after the first
slash-delimited `app` component that has at least one character after it. -/
def appMatchScan : List Char → Option (List Char)
  | [] => none
  | c :: rest =>
    if isSlashChar c then
      match rest with
      | a :: b :: d :: s :: r =>
        if a = 'a' ∧ b = 'p' ∧ d = 'p' ∧ isSlashChar s ∧ r ≠ [] then some r
        else appMatchScan rest
      | _ => appMatchScan rest
    else appMatchScan rest

/-- `app[\\/]?` anchored at the head, returning the remainder (the optional
trailing slash is consumed greedily). -/
def matchAppCore : List Char → Option (List Char)
  | 'a' :: 'p' :: 'p' :: rest =>
    match rest with
    | s :: r => if isSlashChar s then some r else some rest
    | [] => some []
  | _ => none

/-- `(src[\\/])?app[\\/]?` anchored at the head, src-variant tried first. -/
def matchSrcAppAt (l : List Char) : Option (List Char) :=
  match l with
  | 's' :: 'r' :: 'c' :: s :: rest =>
    if isSlashChar s then
      match matchAppCore rest with
      | some r => some r
      | none => matchAppCore l
    else matchAppCore l
  | _ => matchAppCore l

/-- The remainder after the rightmost occurrence of
`[\\/](src[\\/])?app[\\/]?` — the span removed by the greedy
`replace(/.*[\\/](src[\\/])?app[\\/]?/, "")`. -/
def stripToAppOcc : List Char → Option (List Char)
  | [] => none
  | c :: rest =>
    match stripToAppOcc rest with
    | some r => some r
    | none => if isSlashChar c then matchSrcAppAt rest else none

/-- `calculateTanstackRoute` of the file-structure transform: the TanStack
route path computed from a filename. -/
def calculateTanstackRoute (filename : String) : String :=
  let normalizedFilename := normalizePath filename
  let path0 :=
    stripOneTrailingSlash
      (stripBaseSuffixScan isRouteSpecialBase normalizedFilename.data)
  let path1 : List Char :=
    match appMatchScan path0 with
    | some r => r
    | none =>
      match stripToAppOcc path0 with
      | some r => r
      | none => path0
  String.mk (finalizeRoutePathChars (applySegmentRewrites path1))

/-- `app\/` anchored at the head (forward slashes only, as in the api-routes
regex), returning the remainder. -/
def matchAppSlash : List Char → Option (List Char)
  | 'a' :: 'p' :: 'p' :: '/' :: rest => some rest
  | _ => none

/-- `(?:src\/)?app\/` anchored at the head, src-variant tried first. -/
def matchSrcAppSlash (l : List Char) : Option (List Char) :=
  match l with
  | 's' :: 'r' :: 'c' :: '/' :: rest =>
    match matchAppSlash rest with
    | some r => some r
    | none => matchAppSlash l
  | _ => matchAppSlash l

/-- First (leftmost) match of `(?:^|\/)(?:src\/)?app\//`, returning the
remainder after the matched text; `atStart` tracks whether the zero-width
`^` alternative is still available. -/
def searchSrcAppScan : List Char → Bool → Option (List Char)
  | [], _ => none
  | c :: rest, atStart =>
    if atStart then
      match matchSrcAppSlash (c :: rest) with
      | some r => some r
      | none =>
        if c = '/' then
          match matchSrcAppSlash rest with
          | some r => some r
          | none => searchSrcAppScan rest false
        else searchSrcAppScan rest false
    else
      if c = '/' then
        match matchSrcAppSlash rest with
        | some r => some r
        | none => searchSrcAppScan rest false
      else searchSrcAppScan rest false

/-- First index of `needle` in `haystack` (JS `indexOf`). -/
def indexOfSub (haystack needle : List Char) : Option Nat :=
  if needle.isPrefixOf haystack then some 0
  else
    match haystack with
    | [] => none
    | _ :: t => (indexOfSub t needle).map (· + 1)

/-- `^route\.(ts|js|tsx|jsx)$`. -/
def isRouteHandlerBase (s : String) : Bool :=
  (matchBaseWithName "route" s).isSome

/-- `calculateRoutePath` of the api-routes transform. -/
def calculateRoutePath (filename : String) : String :=
  let p0 := normalizePath filename
  let p1 : List Char :=
    match p0.data with
    | a :: b :: rest => if a.isAlpha ∧ b = ':' then rest else p0.data
    | _ => p0.data
  let p2 : List Char :=
    match searchSrcAppScan p1 true with
    | some r => r
    | none =>
      match indexOfSub p1 "/api/".data with
      | some i => p1.drop (i + 1)
      | none => p1
  let p3 := stripBaseSuffixScan isRouteHandlerBase p2
  String.mk (finalizeRoutePathChars (applySegmentRewrites p3))

/-- Stripping one trailing slash from a nonempty list either empties it or
keeps its head. -/
theorem stripHeadCases (a : Char) (l : List Char) :
    stripOneTrailingSlash (a :: l) = [] ∨
      ∃ u, stripOneTrailingSlash (a :: l) = a :: u := by
  cases l with
  | nil =>
    by_cases ha : a = '/'
    · left
      simp [stripOneTrailingSlash, ha]
    · right
      exact ⟨[], by simp [stripOneTrailingSlash, ha]⟩
  | cons b bs => right; exact ⟨stripOneTrailingSlash (b :: bs), rfl⟩

/-- `ensureLeadingSlash` always produces a list headed by `/`. -/
theorem ensureLeadingSlashHead (l : List Char) :
    ∃ t, ensureLeadingSlash l = '/' :: t := by
  cases l with
  | nil => exact ⟨[], rfl⟩
  | cons c cs =>
    by_cases hc : c = '/'
    · subst hc; exact ⟨cs, by simp [ensureLeadingSlash]⟩
    · exact ⟨c :: cs, by simp [ensureLeadingSlash, hc]⟩

/-- The shared finalization step always produces a list headed by `/`. -/
theorem finalizeRoutePathHeadSlash (l : List Char) :
    ∃ t, finalizeRoutePathChars l = '/' :: t := by
  obtain ⟨t, ht⟩ := ensureLeadingSlashHead l
  unfold finalizeRoutePathChars
  rw [ht]
  rcases stripHeadCases '/' t with h | ⟨u, hu⟩
  · rw [h]; exact ⟨[], rfl⟩
  · rw [hu]; exact ⟨u, by simp⟩

/-- A string built from a `/`-headed character list starts with `/`. -/
theorem jsStartsWithSlashMk (t : List Char) :
    jsStartsWith (String.mk ('/' :: t)) "/" = true := by
  simp [jsStartsWith, List.isPrefixOf]

/-- C10 counterexample: on `proj/app/c[x(/)/]/page.tsx` the invariant
checker's route-path derivation produces `/c$x_/`, which ends with a slash
without being the bare root path — the claimed trailing-slash normalization
fails. -/
theorem c10_counterexample :
    computeExpectedRoutePathFromSourcePath "proj/app/c[x(/)/]/page.tsx"
        defaultRuntimeConfig = some "/c$x_/" ∧
    jsEndsWith "/c$x_/" "/" = true ∧ ("/c$x_/" : String) ≠ "/" :=
  ⟨rfl, rfl, by decide⟩

/-- Every `some` result of the invariant checker's derivation goes through
the shared finalization step. -/
theorem computeExpectedShape (filename : String) (cfg : ResolvedRuntimeConfig) :
    computeExpectedRoutePathFromSourcePath filename cfg = none ∨
      ∃ l, computeExpectedRoutePathFromSourcePath filename cfg =
        some (String.mk (finalizeRoutePathChars (applySegmentRewrites l))) := by
  simp only [computeExpectedRoutePathFromSourcePath]
  split
  · left; rfl
  · split
    · left; rfl
    · split
      · left; rfl
      · right; exact ⟨_, rfl⟩

/-- `calculateTanstackRoute` goes through the shared finalization step. -/
theorem calculateTanstackRouteShape (filename : String) :
    ∃ l, calculateTanstackRoute filename =
      String.mk (finalizeRoutePathChars (applySegmentRewrites l)) := by
  unfold calculateTanstackRoute
  exact ⟨_, rfl⟩

/-- `calculateRoutePath` goes through the shared finalization step. -/
theorem calculateRoutePathShape (filename : String) :
    ∃ l, calculateRoutePath filename =
      String.mk (finalizeRoutePathChars (applySegmentRewrites l)) := by
  unfold calculateRoutePath
  exact ⟨_, rfl⟩

/-- C10 (amended): whenever the route-path derivation functions produce a
route-path string, the result begins with `/`; the absence of a trailing
slash is not guaranteed in general, because a segment rewrite can leave a
doubled slash of which only one is stripped. -/
theorem c10_leading_slash (filename : String) (cfg : ResolvedRuntimeConfig)
    (r : String)
    (h : computeExpectedRoutePathFromSourcePath filename cfg = some r) :
    jsStartsWith r "/" = true ∧
    jsStartsWith (calculateTanstackRoute filename) "/" = true ∧
    jsStartsWith (calculateRoutePath filename) "/" = true := by
  refine ⟨?_, ?_, ?_⟩
  · rcases computeExpectedShape filename cfg with hn | ⟨l, hl⟩
    · rw [hn] at h; exact absurd h (by simp)
    · rw [hl] at h
      injection h with h'
      obtain ⟨t, ht⟩ := finalizeRoutePathHeadSlash (applySegmentRewrites l)
      rw [← h', ht]
      exact jsStartsWithSlashMk t
  · obtain ⟨l, hl⟩ := calculateTanstackRouteShape filename
    obtain ⟨t, ht⟩ := finalizeRoutePathHeadSlash (applySegmentRewrites l)
    rw [hl, ht]
    exact jsStartsWithSlashMk t
  · obtain ⟨l, hl⟩ := calculateRoutePathShape filename
    obtain ⟨t, ht⟩ := finalizeRoutePathHeadSlash (applySegmentRewrites l)
    rw [hl, ht]
    exact jsStartsWithSlashMk t

/-- C10 witness: the leading-slash theorem applied at a concrete input. -/
theorem c10_leading_slash_witness :
    jsStartsWith "/about" "/" = true ∧
    jsStartsWith (calculateTanstackRoute "proj/app/about/page.tsx") "/" = true ∧
    jsStartsWith (calculateRoutePath "proj/app/about/page.tsx") "/" = true :=
  c10_leading_slash "proj/app/about/page.tsx" defaultRuntimeConfig "/about" rfl

/-! ## Invariant checker (`assertCreateFileRoutePathMatch`) -/

/-- `/\/__root\.(tsx|jsx|ts|js)$/.test(normalizePath(path))`. -/
def isRootRouteTarget (path : String) : Bool :=
  sourceFileExts.any fun ext => jsEndsWith (normalizePath path) ("/__root." ++ ext)

/-- `createRootRoute\s*\(` anchored at the head. -/
def createRootRouteCallAt (l : List Char) : Bool :=
  if ("createRootRoute".data).isPrefixOf l then
    match (l.drop 15).dropWhile isJsWhitespace with
    | '(' :: _ => true
    | _ => false
  else false

/-- `/createRootRoute\s*\(/.test(source)`. -/
def hasCreateRootRouteCall : List Char → Bool
  | [] => false
  | c :: rest =>
    if createRootRouteCallAt (c :: rest) then true else hasCreateRootRouteCall rest

/-- `createFileRoute\((['"`])([^'"`]+)\1\)` anchored at the head, returning
the captured path. -/
def createFileRouteMatchAt (l : List Char) : Option (List Char) :=
  if ("createFileRoute(".data).isPrefixOf l then
    match l.drop 16 with
    | q :: r =>
      if isQuoteChar q then
        let inner := r.takeWhile (fun ch => !(isQuoteChar ch))
        match r.dropWhile (fun ch => !(isQuoteChar ch)) with
        | q2 :: c2 :: _ =>
          if inner ≠ [] ∧ q2 = q ∧ c2 = ')' then some inner else none
        | _ => none
      else none
    | [] => none
  else none

/-- The first `createFileRoute('...')` path literal in the text. -/
def extractCreateFileRoutePath : List Char → Option (List Char)
  | [] => none
  | c :: rest =>
    match createFileRouteMatchAt (c :: rest) with
    | some inner => some inner
    | none => extractCreateFileRoutePath rest

/-- The error raised when a root-route file lacks the root-declaration form. -/
def rootRouteMismatchMessage (oldPath newPath : String) : String :=
  jsJoin "\n"
    ["Root route mismatch for moved file.",
     "source: " ++ oldPath,
     "target: " ++ newPath,
     "expected root route to use createRootRoute(...) in __root.tsx"]

/-- The error raised when the embedded route path disagrees with the derived
one; it names both paths. -/
def routePathMismatchMessage (oldPath expected actual : String) : String :=
  jsJoin "\n"
    ["Route path mismatch for moved file.",
     "source: " ++ oldPath,
     "expected createFileRoute: " ++ expected,
     "actual createFileRoute: " ++ actual]

/-- `assertCreateFileRoutePathMatch`: a thrown error becomes `Except.error`. -/
def assertCreateFileRoutePathMatch (oldPath newPath source : String)
    (runtimeConfig : ResolvedRuntimeConfig) : Except String Unit :=
  if isRootRouteTarget newPath then
    if hasCreateRootRouteCall source.data then .ok ()
    else .error (rootRouteMismatchMessage oldPath newPath)
  else
    match computeExpectedRoutePathFromSourcePath oldPath runtimeConfig with
    | none => .ok ()
    | some expected =>
      if hasCreateRootRouteCall source.data then .ok ()
      else
        match extractCreateFileRoutePath source.data with
        | none => .ok ()
        | some inner =>
          if String.mk inner ≠ expected then
            .error (routePathMismatchMessage oldPath expected (String.mk inner))
          else .ok ()

/-- C3 counterexample: a non-root relocated file whose text contains a
`createFileRoute` path token that differs from the recomputed route path
passes the checker without error, because the text also contains a
`createRootRoute` call, which short-circuits the comparison. -/
theorem c3_counterexample :
    assertCreateFileRoutePathMatch "proj/app/about/page.tsx"
        "proj/routes/about/index.tsx"
        "createRootRoute(x); export const Route = createFileRoute(\"/wrong\")"
        defaultRuntimeConfig = .ok () ∧
    isRootRouteTarget "proj/routes/about/index.tsx" = false ∧
    extractCreateFileRoutePath
        ("createRootRoute(x); export const Route = createFileRoute(\"/wrong\")" : String).data =
      some ("/wrong" : String).data ∧
    computeExpectedRoutePathFromSourcePath "proj/app/about/page.tsx"
        defaultRuntimeConfig = some "/about" ∧
    ("/wrong" : String) ≠ "/about" :=
  ⟨rfl, rfl, rfl, rfl, by decide⟩

/-- C3 (amended): for a root-declaration target the checker accepts exactly
the texts containing the root-declaration call and otherwise raises the
descriptive root-mismatch error; for a non-root target *whose text does not
contain a `createRootRoute` call*, an embedded `createFileRoute` path token
must equal the independently recomputed route path, otherwise the checker
raises the descriptive error naming both paths; no filesystem effect is
involved in either outcome. -/
theorem c3_invariant_checker (oldPath newPath source : String)
    (cfg : ResolvedRuntimeConfig) :
    (isRootRouteTarget newPath = true →
      ((assertCreateFileRoutePathMatch oldPath newPath source cfg = .ok ()) ↔
        hasCreateRootRouteCall source.data = true) ∧
      (hasCreateRootRouteCall source.data = false →
        assertCreateFileRoutePathMatch oldPath newPath source cfg =
          .error (rootRouteMismatchMessage oldPath newPath))) ∧
    (isRootRouteTarget newPath = false →
      hasCreateRootRouteCall source.data = false →
      ∀ expected inner,
        computeExpectedRoutePathFromSourcePath oldPath cfg = some expected →
        extractCreateFileRoutePath source.data = some inner →
        (String.mk inner ≠ expected →
          assertCreateFileRoutePathMatch oldPath newPath source cfg =
            .error (routePathMismatchMessage oldPath expected (String.mk inner))) ∧
        (String.mk inner = expected →
          assertCreateFileRoutePathMatch oldPath newPath source cfg = .ok ())) := by
  constructor
  · intro hroot
    constructor
    · cases hc : hasCreateRootRouteCall source.data <;>
        simp [assertCreateFileRoutePathMatch, hroot, hc]
    · intro hc
      simp [assertCreateFileRoutePathMatch, hroot, hc]
  · intro hroot hc expected inner hexp hextract
    constructor
    · intro hne
      simp [assertCreateFileRoutePathMatch, hroot, hc, hexp, hextract, hne]
    · intro heq
      simp [assertCreateFileRoutePathMatch, hroot, hc, hexp, hextract, heq]

/-- C3 witness: the checker theorem applied at a concrete matching input. -/
theorem c3_invariant_checker_witness :
    assertCreateFileRoutePathMatch "proj/app/about/page.tsx"
        "proj/routes/about/index.tsx"
        "export const Route = createFileRoute(\"/about\")"
        defaultRuntimeConfig = .ok () :=
  ((c3_invariant_checker "proj/app/about/page.tsx" "proj/routes/about/index.tsx"
        "export const Route = createFileRoute(\"/about\")" defaultRuntimeConfig).2
      rfl rfl "/about" ("/about" : String).data rfl rfl).2 rfl

/-! ## Root-route source normalization (`normalizeRootRouteSource`) -/

/-- One match of `createFileRoute\(\s*(['"`])\/\1\s*\)\s*\(` with replacement
`createRootRoute(`. -/
def tryRootFactoryMatch (l : List Char) : Option (List Char × List Char) :=
  if ("createFileRoute(".data).isPrefixOf l then
    match (l.drop 16).dropWhile isJsWhitespace with
    | q :: r =>
      if isQuoteChar q then
        match r with
        | '/' :: q2 :: r3 =>
          if q2 = q then
            match r3.dropWhile isJsWhitespace with
            | ')' :: r4 =>
              match r4.dropWhile isJsWhitespace with
              | '(' :: r5 => some (("createRootRoute(".data), r5)
              | _ => none
            | _ => none
          else none
        | _ => none
      else none
    | [] => none
  else none

/-- Join character lists with a separator. -/
def joinCharLists (sep : List Char) : List (List Char) → List Char
  | [] => []
  | [x] => x
  | x :: rest => x ++ sep ++ joinCharLists sep rest

/-- Rebuild the `@tanstack/react-router` import binding: split the specifier
list on commas, trim, drop empties, remove `createFileRoute`, and put
`createRootRoute` first unless already present. -/
def rebuildTanstackImport (inner : List Char) (q : Char) : List Char :=
  let parts :=
    ((jsSplitCharsAux (fun c => c = ',') inner []).map jsTrimChars).filter (· ≠ [])
  let withoutCFR := parts.filter (fun p => p ≠ ("createFileRoute".data))
  let withRoot :=
    if withoutCFR.contains ("createRootRoute".data) then withoutCFR
    else ("createRootRoute".data) :: withoutCFR
  ("import \x7b ".data) ++ joinCharLists (", ".data) withRoot ++
    (" \x7d from ".data) ++ [q] ++ ("@tanstack/react-router".data) ++ [q]

/-- One match of
`import\s*{\s*([^}]+)\s*}\s*from\s*(['"])@tanstack\/react-router\2`, with the
replacement computed by `rebuildTanstackImport`. -/
def tryTanstackImportMatch (l : List Char) : Option (List Char × List Char) :=
  if ("import".data).isPrefixOf l then
    match (l.drop 6).dropWhile isJsWhitespace with
    | '{' :: r1 =>
      let inner := r1.takeWhile (fun ch => ch != '}')
      match r1.dropWhile (fun ch => ch != '}') with
      | '}' :: r3 =>
        if inner ≠ [] then
          match r3.dropWhile isJsWhitespace with
          | 'f' :: 'r' :: 'o' :: 'm' :: r4 =>
            match r4.dropWhile isJsWhitespace with
            | q :: r5 =>
              if q = '"' ∨ q = Char.ofNat 39 then
                if ("@tanstack/react-router".data).isPrefixOf r5 then
                  match r5.drop 22 with
                  | q2 :: r6 =>
                    if q2 = q then some (rebuildTanstackImport inner q, r6)
                    else none
                  | [] => none
                else none
              else none
            | [] => none
          | _ => none
        else none
      | _ => none
    | _ => none
  else none

/-- `normalizeRootRouteSource`: rewrite the `createFileRoute('/')(...)`
factory call to `createRootRoute(...)` and update the tanstack import
binding. -/
def normalizeRootRouteSource (source : String) : String :=
  String.mk
    (jsReplaceAll tryTanstackImportMatch
      (jsReplaceAll tryRootFactoryMatch source.data))

/-! ## Filesystem model and the relocation transactor -/

/-- A snapshot of the filesystem fragment the transactor touches: a map from
file paths to contents and the set of existing directories. -/
structure FS where
  files : List (String × String)
  dirs : List String
deriving DecidableEq

/-- `readFile` on the model. -/
def lookupFile (fs : FS) (path : String) : Option String :=
  fs.files.lookup path

/-- `existsFile` (via `fsp.access`) on a file path. -/
def existsFileFS (fs : FS) (path : String) : Bool :=
  (lookupFile fs path).isSome

/-- `tryDeleteFile` (via `fsp.unlink`). -/
def deleteFileFS (fs : FS) (path : String) : FS :=
  { fs with files := fs.files.filter (fun e => e.1 ≠ path) }

/-- `fsp.writeFile`. -/
def writeFileFS (fs : FS) (path content : String) : FS :=
  { fs with files := (path, content) :: fs.files.filter (fun e => e.1 ≠ path) }

/-- `fsp.mkdir(dir, { recursive: true })`: create the directory and its
missing ancestors. -/
def mkdirRecursiveAux : Nat → String → FS → FS
  | 0, _, fs => fs
  | fuel + 1, d, fs =>
    if d = "" ∨ d = "." ∨ d = "/" then fs
    else
      mkdirRecursiveAux fuel (dirname d)
        (if fs.dirs.contains d then fs else { fs with dirs := d :: fs.dirs })

/-- `fsp.mkdir` with enough fuel to reach the root. -/
def mkdirRecursive (d : String) (fs : FS) : FS :=
  mkdirRecursiveAux (d.length + 1) d fs

/-- `fsp.readdir`: the immediate children (files and directories) of a
directory, assuming stored paths are normalized. -/
def listDirEntries (fs : FS) (path : String) : List String :=
  (fs.files.map (fun e => e.1) ++ fs.dirs).filter (fun p => dirname p = path)

/-- `fsp.rm(path, { recursive: false, force: false })` on a directory. -/
def removeDirFS (fs : FS) (path : String) : FS :=
  { fs with dirs := fs.dirs.erase path }

/-- `tryDeleteDirIfEmpty`: `readdir` failure (missing directory) and a
nonempty directory both report `false` and leave the filesystem unchanged;
an existing empty directory is removed and reported `true`. -/
def tryDeleteDirIfEmpty (path : String) (fs : FS) : Bool × FS :=
  if fs.dirs.contains path then
    if listDirEntries fs path = [] then (true, removeDirFS fs path) else (false, fs)
  else (false, fs)

/-- The app-root boundary used by `pruneEmptyRouteDirs`: the path prefix of
the moved file up to and including the app-directory segments. -/
def appBoundaryPath (movedFromFilePath appDirectory : String) : Option String :=
  let segments :=
    (jsSplit (· = '/') (normalizePath movedFromFilePath)).filter (· ≠ "")
  let appSegments := normalizeDirSegments appDirectory
  match findSubPathIndex segments appSegments with
  | none => none
  | some appIndex =>
    some (jsJoin "/" (segments.take (appIndex + appSegments.length)))

/-- The upward pruning walk of `pruneEmptyRouteDirs`: ascend while the
current directory is below the app boundary, deleting it when empty and
stopping when a directory is nonempty, missing, or the boundary is hit. -/
def pruneLoop (appPath : String) : Nat → String → FS → FS
  | 0, _, fs => fs
  | fuel + 1, currentDir, fs =>
    if currentDir ≠ "" ∧ currentDir ≠ "." ∧ currentDir ≠ appPath ∧
        jsStartsWith currentDir (appPath ++ "/") = true then
      match tryDeleteDirIfEmpty currentDir fs with
      | (true, fs1) => pruneLoop appPath fuel (dirname currentDir) fs1
      | (false, fs1) => fs1
    else fs

/-- `pruneEmptyRouteDirs`. -/
def pruneEmptyRouteDirs (movedFromFilePath appDirectory : String) (fs : FS) : FS :=
  match appBoundaryPath movedFromFilePath appDirectory with
  | none => fs
  | some appPath =>
    pruneLoop appPath ((normalizePath movedFromFilePath).length + 1)
      (dirname (normalizePath movedFromFilePath)) fs

/-- The conflict error of `writeMovedFileAndDeleteOriginal`. -/
def conflictMessage (newPath : String) : String :=
  "Refusing to overwrite existing target file with different content: " ++ newPath

/-- `writeMovedFileAndDeleteOriginal`: a thrown error becomes `Except.error`
and the filesystem is returned alongside. -/
def writeMovedFileAndDeleteOriginal (oldPath newPath output appDirectory : String)
    (fs : FS) : Except String Unit × FS :=
  if normalizePath oldPath = normalizePath newPath then (.ok (), fs)
  else
    match lookupFile fs newPath with
    | some existing =>
      if existing = output then
        if existsFileFS fs oldPath then
          (.ok (), pruneEmptyRouteDirs oldPath appDirectory (deleteFileFS fs oldPath))
        else (.ok (), fs)
      else (.error (conflictMessage newPath), fs)
    | none =>
      let fs1 := writeFileFS (mkdirRecursive (dirname newPath) fs) newPath output
      if existsFileFS fs1 oldPath then
        (.ok (), pruneEmptyRouteDirs oldPath appDirectory (deleteFileFS fs1 oldPath))
      else (.ok (), fs1)

/-! ## The per-file transform pipeline -/

/-- `await Promise.all(tasks)`: the first rejecting task aborts the whole
collection. -/
def collectResults {α : Type} : List (Except String α) → Except String (List α)
  | [] => .ok []
  | .error e :: _ => .error e
  | .ok a :: rest =>
    match collectResults rest with
    | .ok l => .ok (a :: l)
    | .error e => .error e

/-- Concatenate the non-null pass results into one edit list, in pass order. -/
def mergeEdits (results : List (Option (List String))) : List String :=
  results.foldl
    (fun acc r =>
      match r with
      | some es => acc ++ es
      | none => acc)
    []

/-- The `transform` entry point for one file.  Pass execution and the edit
commit (both provided by the external ast-grep engine) are parameters: the
pass results arrive in the fixed pass order, and `commitEdits` maps the
merged edit list to the committed text. -/
def transformPipeline (filename : String) (cfg : ResolvedRuntimeConfig)
    (passResults : List (Except String (Option (List String))))
    (commitEdits : List String → String) (dryRun : Bool) (fs : FS) :
    Except String (Option String) × FS :=
  match collectResults passResults with
  | .error e => (.error e, fs)
  | .ok results =>
    let commitResult := commitEdits (mergeEdits results)
    let targetPath :=
      if "route-file-structure" ∈ cfg.enabledMigrations then
        computeTanstackTargetPath filename cfg
      else none
    if dryRun = false then
      match targetPath with
      | some t =>
        let output :=
          if isRootRouteTarget t then normalizeRootRouteSource commitResult
          else commitResult
        match assertCreateFileRoutePathMatch filename t output cfg with
        | .error e => (.error e, fs)
        | .ok _ =>
          match writeMovedFileAndDeleteOriginal filename t output cfg.appDirectory fs with
          | (.error e, fs1) => (.error e, fs1)
          | (.ok _, fs1) => (.ok none, fs1)
      | none => (.ok (some commitResult), fs)
    else (.ok (some commitResult), fs)

/-! ## Properties of the transactor and the pruning walk -/

/-- Looking up a key in a list filtered to exclude it yields nothing. -/
theorem lookupFilterSelf (l : List (String × String)) (p : String) :
    (l.filter (fun e => e.1 ≠ p)).lookup p = none := by
  induction l with
  | nil => rfl
  | cons e t ih =>
    obtain ⟨k, v⟩ := e
    rw [List.filter_cons]
    by_cases h : k = p
    · have hd : (decide ((k, v).1 ≠ p)) = false := by simp [h]
      rw [hd, if_neg (by simp)]
      exact ih
    · have hd : (decide ((k, v).1 ≠ p)) = true := by simp [h]
      rw [hd, if_pos rfl, List.lookup]
      have hk : (p == k) = false := beq_eq_false_iff_ne.mpr fun hpk => h hpk.symm
      rw [hk]
      exact ih

/-- Filtering out one key leaves lookups of other keys unchanged. -/
theorem lookupFilterOther (l : List (String × String)) (p q : String)
    (hpq : p ≠ q) :
    (l.filter (fun e => e.1 ≠ p)).lookup q = l.lookup q := by
  induction l with
  | nil => rfl
  | cons e t ih =>
    obtain ⟨k, v⟩ := e
    rw [List.filter_cons]
    by_cases h : k = p
    · have hd : (decide ((k, v).1 ≠ p)) = false := by simp [h]
      rw [hd, if_neg (by simp), ih, List.lookup]
      have hk : (q == k) = false :=
        beq_eq_false_iff_ne.mpr fun hqk => hpq (by rw [h] at hqk; exact hqk.symm)
      rw [hk]
    · have hd : (decide ((k, v).1 ≠ p)) = true := by simp [h]
      rw [hd, if_pos rfl, List.lookup, List.lookup]
      cases hq : q == k
      · exact ih
      · rfl

/-- `tryDeleteDirIfEmpty` reports `true` exactly on an existing, empty
directory. -/
theorem tryDeleteTrueIff (p : String) (fs : FS) :
    (tryDeleteDirIfEmpty p fs).1 = true ↔ p ∈ fs.dirs ∧ listDirEntries fs p = [] := by
  unfold tryDeleteDirIfEmpty
  split_ifs with h1 h2 <;> simp_all

/-- A successful delete removes exactly that directory. -/
theorem tryDeleteTrueEffect (p : String) (fs : FS)
    (h : (tryDeleteDirIfEmpty p fs).1 = true) :
    (tryDeleteDirIfEmpty p fs).2 = removeDirFS fs p := by
  unfold tryDeleteDirIfEmpty at h ⊢
  split_ifs at h ⊢ <;> simp_all

/-- A failed delete leaves the filesystem unchanged. -/
theorem tryDeleteFalseEffect (p : String) (fs : FS)
    (h : (tryDeleteDirIfEmpty p fs).1 = false) :
    (tryDeleteDirIfEmpty p fs).2 = fs := by
  unfold tryDeleteDirIfEmpty at h ⊢
  split_ifs at h ⊢ <;> simp_all

/-- Directory deletion never touches files. -/
theorem tryDeleteFiles (p : String) (fs : FS) :
    (tryDeleteDirIfEmpty p fs).2.files = fs.files := by
  unfold tryDeleteDirIfEmpty
  split_ifs <;> rfl

/-- The pruning walk never touches files. -/
theorem pruneLoopFiles (appPath : String) (fuel : Nat) :
    ∀ (cur : String) (fs : FS), (pruneLoop appPath fuel cur fs).files = fs.files := by
  induction fuel with
  | zero => intro cur fs; rfl
  | succ n ih =>
    intro cur fs
    rw [pruneLoop]
    split
    · split
      · rename_i fs1 heq
        rw [ih (dirname cur) fs1]
        have hf := tryDeleteFiles cur fs
        rw [heq] at hf
        exact hf
      · rename_i fs1 heq
        have hf := tryDeleteFiles cur fs
        rw [heq] at hf
        exact hf
    · rfl

/-- Every directory removed by the pruning walk lies strictly below the
boundary path. -/
theorem pruneLoopRemoved (appPath : String) (fuel : Nat) :
    ∀ (cur : String) (fs : FS) (d : String), d ∈ fs.dirs →
      d ∉ (pruneLoop appPath fuel cur fs).dirs →
      d ≠ appPath ∧ jsStartsWith d (appPath ++ "/") = true := by
  induction fuel with
  | zero => intro cur fs d hin hout; exact absurd hin hout
  | succ n ih =>
    intro cur fs d hin hout
    rw [pruneLoop] at hout
    split at hout
    · rename_i hg
      split at hout
      · rename_i fs1 heq
        have heff : fs1 = removeDirFS fs cur := by
          have h1 : (tryDeleteDirIfEmpty cur fs).1 = true := by rw [heq]
          have h2 := tryDeleteTrueEffect cur fs h1
          rw [heq] at h2
          exact h2
        by_cases hd : d = cur
        · subst hd
          exact ⟨hg.2.2.1, hg.2.2.2⟩
        · have hin1 : d ∈ fs1.dirs := by
            rw [heff]
            show d ∈ fs.dirs.erase cur
            exact (List.mem_erase_of_ne hd).mpr hin
          exact ih (dirname cur) fs1 d hin1 hout
      · rename_i fs1 heq
        have heff : fs1 = fs := by
          have h1 : (tryDeleteDirIfEmpty cur fs).1 = false := by rw [heq]
          have h2 := tryDeleteFalseEffect cur fs h1
          rw [heq] at h2
          exact h2
        subst heff
        exact absurd hin hout
    · exact absurd hin hout

/-- Pruning never touches files. -/
theorem pruneFilesUnchanged (m a : String) (fs : FS) :
    (pruneEmptyRouteDirs m a fs).files = fs.files := by
  unfold pruneEmptyRouteDirs
  split
  · rfl
  · exact pruneLoopFiles _ _ _ _

/-- C5: the pruning walk removes a directory only when it is empty and
existing (and then removes exactly it), reports failure without touching
anything otherwise; it never touches files; and every directory it removes
lies strictly below the app-root boundary — in particular the configured app
root itself is never removed. -/
theorem c5_pruning_boundary :
    (∀ (p : String) (fs : FS),
      ((tryDeleteDirIfEmpty p fs).1 = true ↔
        p ∈ fs.dirs ∧ listDirEntries fs p = []) ∧
      ((tryDeleteDirIfEmpty p fs).1 = true →
        (tryDeleteDirIfEmpty p fs).2 = removeDirFS fs p) ∧
      ((tryDeleteDirIfEmpty p fs).1 = false → (tryDeleteDirIfEmpty p fs).2 = fs)) ∧
    (∀ (movedFrom appDirectory : String) (fs : FS),
      (pruneEmptyRouteDirs movedFrom appDirectory fs).files = fs.files ∧
      ∀ d, d ∈ fs.dirs → d ∉ (pruneEmptyRouteDirs movedFrom appDirectory fs).dirs →
        ∃ appPath, appBoundaryPath movedFrom appDirectory = some appPath ∧
          d ≠ appPath ∧ jsStartsWith d (appPath ++ "/") = true) := by
  constructor
  · intro p fs
    exact ⟨tryDeleteTrueIff p fs, tryDeleteTrueEffect p fs, tryDeleteFalseEffect p fs⟩
  · intro m a fs
    refine ⟨pruneFilesUnchanged m a fs, ?_⟩
    intro d hin hout
    unfold pruneEmptyRouteDirs at hout
    split at hout
    · exact absurd hin hout
    · rename_i appPath happ
      exact ⟨appPath, happ, pruneLoopRemoved appPath _ _ fs d hin hout⟩

/-- C5 witness: the pruning theorem applied at concrete inputs. -/
theorem c5_pruning_boundary_witness :
    (tryDeleteDirIfEmpty "proj/app/a" ⟨[], ["proj", "proj/app", "proj/app/a"]⟩).2 =
      removeDirFS ⟨[], ["proj", "proj/app", "proj/app/a"]⟩ "proj/app/a" :=
  (c5_pruning_boundary.1 "proj/app/a" ⟨[], ["proj", "proj/app", "proj/app/a"]⟩).2.1
    (by decide)

/-- C2: when a file already exists at the target path, equal content makes
the move succeed as already completed (the source is deleted when present
and the destination keeps its content), while different content fails with
the conflict error and leaves the filesystem exactly as it was. -/
theorem c2_relocation_conflict (oldPath newPath output appDirectory : String)
    (fs : FS) (existing : String)
    (hne : normalizePath oldPath ≠ normalizePath newPath)
    (hex : lookupFile fs newPath = some existing) :
    (existing = output →
      (writeMovedFileAndDeleteOriginal oldPath newPath output appDirectory fs).1 =
        .ok () ∧
      lookupFile
        (writeMovedFileAndDeleteOriginal oldPath newPath output appDirectory fs).2
        oldPath = none ∧
      lookupFile
        (writeMovedFileAndDeleteOriginal oldPath newPath output appDirectory fs).2
        newPath = some existing) ∧
    (existing ≠ output →
      writeMovedFileAndDeleteOriginal oldPath newPath output appDirectory fs =
        (.error (conflictMessage newPath), fs)) := by
  have hne2 : oldPath ≠ newPath := fun h => hne (by rw [h])
  constructor
  · intro heq
    by_cases hof : existsFileFS fs oldPath
    · have hres :
          writeMovedFileAndDeleteOriginal oldPath newPath output appDirectory fs =
            (.ok (),
              pruneEmptyRouteDirs oldPath appDirectory (deleteFileFS fs oldPath)) := by
        simp [writeMovedFileAndDeleteOriginal, hne, hex, heq, hof]
      refine ⟨by rw [hres], ?_, ?_⟩
      · rw [hres]
        show lookupFile (pruneEmptyRouteDirs oldPath appDirectory
          (deleteFileFS fs oldPath)) oldPath = none
        unfold lookupFile
        rw [pruneFilesUnchanged]
        exact lookupFilterSelf fs.files oldPath
      · rw [hres]
        show lookupFile (pruneEmptyRouteDirs oldPath appDirectory
          (deleteFileFS fs oldPath)) newPath = some existing
        unfold lookupFile
        rw [pruneFilesUnchanged]
        exact (lookupFilterOther fs.files oldPath newPath hne2).trans hex
    · have hres :
          writeMovedFileAndDeleteOriginal oldPath newPath output appDirectory fs =
            (.ok (), fs) := by
        simp [writeMovedFileAndDeleteOriginal, hne, hex, heq, hof]
      refine ⟨by rw [hres], ?_, by rw [hres]; exact hex⟩
      rw [hres]
      show lookupFile fs oldPath = none
      have : existsFileFS fs oldPath = false := by
        cases h : existsFileFS fs oldPath
        · rfl
        · exact absurd h hof
      unfold existsFileFS at this
      exact Option.not_isSome_iff_eq_none.mp (by rw [this]; simp)
  · intro hneq
    simp [writeMovedFileAndDeleteOriginal, hne, hex, hneq]

/-- C2 witness: the conflict-safety theorem applied at a concrete input. -/
theorem c2_relocation_conflict_witness :
    writeMovedFileAndDeleteOriginal "proj/app/a/page.tsx" "proj/routes/a/index.tsx"
        "OUT" "app" ⟨[("proj/routes/a/index.tsx", "OLD")], []⟩ =
      (.error (conflictMessage "proj/routes/a/index.tsx"),
        ⟨[("proj/routes/a/index.tsx", "OLD")], []⟩) :=
  (c2_relocation_conflict "proj/app/a/page.tsx" "proj/routes/a/index.tsx" "OUT" "app"
      ⟨[("proj/routes/a/index.tsx", "OLD")], []⟩ "OLD" (by decide) rfl).2 (by decide)

/-- `Promise.all` rejects as soon as any collected task rejects. -/
theorem collectResultsError {α : Type} (l : List (Except String α)) (e : String)
    (he : Except.error e ∈ l) : ∃ e2, collectResults l = Except.error e2 := by
  induction l with
  | nil => cases he
  | cons x rest ih =>
    cases x with
    | error e1 => exact ⟨e1, rfl⟩
    | ok a =>
      rcases List.mem_cons.mp he with h | h
      · exact Except.noConfusion h
      · obtain ⟨e2, h2⟩ := ih h
        exact ⟨e2, by simp [collectResults, h2]⟩

/-- C6: if any enabled pass raises an error, the whole per-file pipeline
aborts with an error and the filesystem is left untouched — no commit, no
invariant check, no relocation. -/
theorem c6_pass_error_aborts (filename : String) (cfg : ResolvedRuntimeConfig)
    (passResults : List (Except String (Option (List String))))
    (commitEdits : List String → String) (dryRun : Bool) (fs : FS)
    (h : ∃ e, Except.error e ∈ passResults) :
    (∃ e2, (transformPipeline filename cfg passResults commitEdits dryRun fs).1 =
      .error e2) ∧
    (transformPipeline filename cfg passResults commitEdits dryRun fs).2 = fs := by
  obtain ⟨e, he⟩ := h
  obtain ⟨e2, h2⟩ := collectResultsError passResults e he
  exact ⟨⟨e2, by simp [transformPipeline, h2]⟩, by simp [transformPipeline, h2]⟩

/-- C6 witness: the abort theorem applied at a concrete failing pass. -/
theorem c6_pass_error_aborts_witness :
    (∃ e2, (transformPipeline "proj/app/a/page.tsx" defaultRuntimeConfig
        [Except.error "pass failed"] (fun _ => "text") false ⟨[], []⟩).1 =
      .error e2) ∧
    (transformPipeline "proj/app/a/page.tsx" defaultRuntimeConfig
        [Except.error "pass failed"] (fun _ => "text") false ⟨[], []⟩).2 = ⟨[], []⟩ :=
  c6_pass_error_aborts "proj/app/a/page.tsx" defaultRuntimeConfig
    [Except.error "pass failed"] (fun _ => "text") false ⟨[], []⟩
    ⟨"pass failed", by simp⟩

/-- C4: a file whose app-relative directory segments contain a private
(`_name`) or parallel (`@name`) segment, or combine a route-group segment
with a layout/template filename on a branch that is not group-only, is not
eligible for relocation: the route-path deriver returns `none`, and the
pipeline leaves the filesystem untouched for that file (its text may still
be edited and returned by the other passes). -/
theorem c4_exclusions (filename : String) (cfg : ResolvedRuntimeConfig) (i : Nat)
    (hi : findSubPathIndex (splitPathSegments filename)
        (normalizeDirSegments cfg.appDirectory) = some i)
    (hex :
      ((((splitPathSegments filename).drop
            (i + (normalizeDirSegments cfg.appDirectory).length)).dropLast.any
              isPrivateSegment = true ∨
        (((splitPathSegments filename).drop
            (i + (normalizeDirSegments cfg.appDirectory).length)).dropLast.any
              isParallelSegment = true)) ∨
       ((((splitPathSegments filename).drop
            (i + (normalizeDirSegments cfg.appDirectory).length)).dropLast.any
              isRouteGroupSegment = true) ∧
        isLayoutLikeFile (((splitPathSegments filename).getLast?).getD "") = true ∧
        (!(((splitPathSegments filename).drop
              (i + (normalizeDirSegments cfg.appDirectory).length)).dropLast.isEmpty) &&
          (((splitPathSegments filename).drop
              (i + (normalizeDirSegments cfg.appDirectory).length)).dropLast.all
                isRouteGroupSegment)) = false))) :
    computeTanstackTargetPath filename cfg = none ∧
    ∀ passResults commitEdits dryRun fs,
      (transformPipeline filename cfg passResults commitEdits dryRun fs).2 = fs := by
  have hnone : computeTanstackTargetPath filename cfg = none := by
    simp only [computeTanstackTargetPath]
    split
    · split
      · rfl
      · split
        · rfl
        · split
          · rfl
          · rename_i appIndex heq
            rw [hi] at heq
            injection heq with heq2
            subst heq2
            split
            · rfl
            · split
              · rfl
              · split
                · rfl
                · rename_i hcond1
                  split
                  · rfl
                  · rename_i hcond2
                    exfalso
                    rcases hex with h | h
                    · rcases h with h | h
                      · exact hcond1 (by simp [h])
                      · exact hcond1 (by simp [h])
                    · exact hcond2 (by simp [h.1, h.2.1, h.2.2])
    · rfl
  refine ⟨hnone, ?_⟩
  intro passResults commitEdits dryRun fs
  cases hcr : collectResults passResults with
  | error e => simp [transformPipeline, hcr]
  | ok results =>
    simp only [transformPipeline, hcr, hnone, ite_self]

/-- C4 witness: the exclusion theorem applied to a parallel-route path. -/
theorem c4_exclusions_witness :
    computeTanstackTargetPath "proj/app/@modal/x/page.tsx" defaultRuntimeConfig =
      none ∧
    (transformPipeline "proj/app/@modal/x/page.tsx" defaultRuntimeConfig
        [Except.ok (some ["edit"])] (fun _ => "text") false ⟨[], []⟩).2 = ⟨[], []⟩ := by
  have h := c4_exclusions "proj/app/@modal/x/page.tsx" defaultRuntimeConfig 1
    (by decide) (Or.inl (Or.inr (by decide)))
  exact ⟨h.1, h.2 [Except.ok (some ["edit"])] (fun _ => "text") false ⟨[], []⟩⟩

/-! ## Pass enablement (`resolveEnabledMigrations`) -/

/-- The allow-list built from an `enabledMigrations` array: recognized ids
are collected, unknown ids are ignored. -/
def allowListFromIds (l : List String) : Finset String :=
  l.foldl
    (fun acc raw =>
      match normalizeMigrationId raw with
      | some id => insert id acc
      | none => acc)
    (∅ : Finset String)

/-- The deny-list layer: every recognized id of `disabledMigrations` is
removed from the enabled set. -/
def applyDisabledMigrationsLayer (disabled : Option (List String))
    (enabled : Finset String) : Finset String :=
  match disabled with
  | some l =>
    l.foldl
      (fun acc raw =>
        match normalizeMigrationId raw with
        | some id => acc.erase id
        | none => acc)
      enabled
  | none => enabled

/-- The per-id boolean override layer: a `true` entry force-adds, a `false`
entry force-removes, unknown ids are ignored. -/
def applyMigrationsOverrideLayer (overrides : Option (List (String × Bool)))
    (enabled : Finset String) : Finset String :=
  match overrides with
  | some entries =>
    entries.foldl
      (fun acc e =>
        match normalizeMigrationId e.1 with
        | some id => if e.2 then insert id acc else acc.erase id
        | none => acc)
      enabled
  | none => enabled

/-- `resolveEnabledMigrations` from the source: start from all ids; a
*nonempty* `enabledMigrations` array replaces the baseline; then the
deny-list layer; then the boolean override layer. -/
def resolveEnabledMigrations (config : CodemodProjectConfig) : Finset String :=
  let enabled1 : Finset String :=
    match config.enabledMigrations with
    | some l =>
      if l.length > 0 then allowListFromIds l else MIGRATION_IDS.toFinset
    | none => MIGRATION_IDS.toFinset
  applyMigrationsOverrideLayer config.migrations
    (applyDisabledMigrationsLayer config.disabledMigrations enabled1)

/-- The pass-enablement resolution exactly as the claim words it: the
baseline allow-list is `enabledMigrations` whenever that key is present
(defaulting to all known ids only when it is absent), then the deny-list,
then the boolean override map. -/
def resolveEnabledMigrationsClaim (config : CodemodProjectConfig) : Finset String :=
  let enabled1 : Finset String :=
    match config.enabledMigrations with
    | some l => allowListFromIds l
    | none => MIGRATION_IDS.toFinset
  applyMigrationsOverrideLayer config.migrations
    (applyDisabledMigrationsLayer config.disabledMigrations enabled1)

/-- The amended resolution: as the claim, except that an `enabledMigrations`
key holding an *empty* array also falls back to all known pass ids. -/
def resolveEnabledMigrationsAmended (config : CodemodProjectConfig) : Finset String :=
  let enabled1 : Finset String :=
    match config.enabledMigrations with
    | some l =>
      if l.isEmpty then MIGRATION_IDS.toFinset else allowListFromIds l
    | none => MIGRATION_IDS.toFinset
  applyMigrationsOverrideLayer config.migrations
    (applyDisabledMigrationsLayer config.disabledMigrations enabled1)

/-- C7 counterexample: with `"enabledMigrations": []` present in the config,
the source keeps every pass enabled, while the claim's allow-list reading
(start from the list `enabledMigrations` gives) would disable them all. -/
theorem c7_counterexample :
    resolveEnabledMigrations { enabledMigrations := some [] } ≠
      resolveEnabledMigrationsClaim { enabledMigrations := some [] } := by
  decide

/-- C7 (amended): pass enablement is resolved in three ordered layers — the
allow-list `enabledMigrations` (defaulting to all known pass ids when absent
*or empty*), then removal of every `disabledMigrations` id, then the per-id
boolean `migrations` map applied last, with unrecognized ids ignored at every
layer.  The source resolver agrees with this layered resolution on every
config. -/
theorem c7_enablement_layers (config : CodemodProjectConfig) :
    resolveEnabledMigrations config = resolveEnabledMigrationsAmended config := by
  unfold resolveEnabledMigrations resolveEnabledMigrationsAmended
  cases h : config.enabledMigrations with
  | none => rfl
  | some l =>
    cases l with
    | nil => rfl
    | cons a t => simp

end NextToTanstack
